import Mathlib

/-!
Verification model of the Bedrock agent adapter (`src/utils/bedrock.py`).

The Python module wraps one remote invocation call: it owns a session id,
sends a request, consumes a heterogeneous event stream, classifies each
event, pushes formatted trace fragments to a sink (the streamlit `trace`
widget), and returns `(response_text, trace_text)`.

We embed the values flowing through the adapter as a JSON-like tree
(`Val`), with Python `datetime` and `bytes` values as extra scalar
constructors.  Dictionaries and lists are represented with mutually
inductive spine types (`Fields`, `Items`) so that every function below is
structurally recursive and kernel-computable.
-/

/-- Model of Python `datetime.datetime` (microseconds omitted: the adapter
only ever asks for `isoformat()` and `str`). -/
structure DateTime where
  year : Nat
  month : Nat
  day : Nat
  hour : Nat
  minute : Nat
  second : Nat
deriving DecidableEq

/-- Zero-pad a numeral to two digits, as Python date formatting does. -/
def pad2 (n : Nat) : String :=
  if n < 10 then "0" ++ toString n else toString n

/-- Zero-pad a year to four digits. -/
def pad4 (n : Nat) : String :=
  if n < 10 then "000" ++ toString n
  else if n < 100 then "00" ++ toString n
  else if n < 1000 then "0" ++ toString n
  else toString n

/-- Model of `datetime.isoformat()`: `YYYY-MM-DDTHH:MM:SS`. -/
def DateTime.isoformat (d : DateTime) : String :=
  pad4 d.year ++ "-" ++ pad2 d.month ++ "-" ++ pad2 d.day ++ "T" ++
    pad2 d.hour ++ ":" ++ pad2 d.minute ++ ":" ++ pad2 d.second

/-- Model of `str(datetime)`: same fields with a space separator. -/
def DateTime.pyText (d : DateTime) : String :=
  pad4 d.year ++ "-" ++ pad2 d.month ++ "-" ++ pad2 d.day ++ " " ++
    pad2 d.hour ++ ":" ++ pad2 d.minute ++ ":" ++ pad2 d.second

mutual

/-- Python values that cross the adapter: JSON scalars, `datetime`,
`bytes` (represented by their UTF-8 decoding), dicts and lists. -/
inductive Val where
  | vStr (s : String)
  | vInt (n : Int)
  | vBool (b : Bool)
  | vNull
  | vDatetime (d : DateTime)
  | vBytes (s : String)
  | vDict (fs : Fields)
  | vList (xs : Items)

/-- Spine of a Python dict: insertion-ordered key/value pairs. -/
inductive Fields where
  | nil
  | cons (k : String) (v : Val) (rest : Fields)

/-- Spine of a Python list. -/
inductive Items where
  | nil
  | cons (v : Val) (rest : Items)

end

/-- Build a dict value from a list of pairs (readability helper for
concrete test inputs; the adapter itself works on `Fields`). -/
def fieldsOf : List (String × Val) → Fields
  | [] => .nil
  | (k, v) :: rest => .cons k v (fieldsOf rest)

/-- Build a dict `Val` from a list of pairs. -/
def dictOf (l : List (String × Val)) : Val := .vDict (fieldsOf l)

/-- Keys of a dict spine, in order. -/
def Fields.keys : Fields → List String
  | .nil => []
  | .cons k _ rest => k :: rest.keys

/-- First value bound to a key, mirroring Python dict lookup. -/
def Fields.find (fs : Fields) (k : String) : Option Val :=
  match fs with
  | .nil => none
  | .cons k' v rest => if k' = k then some v else rest.find k

/-- Membership of a key, mirroring `k in d` on a dict. -/
def Fields.hasKey (fs : Fields) (k : String) : Bool :=
  match fs with
  | .nil => false
  | .cons k' _ rest => k' == k || rest.hasKey k

/-- Does the pattern start the list? (helper for Python substring tests). -/
def startsWithL (pat l : List Char) : Bool :=
  match pat, l with
  | [], _ => true
  | _ :: _, [] => false
  | p :: ps, c :: cs => p == c && startsWithL ps cs

/-- Does the pattern occur anywhere in the list? -/
def containsL (pat l : List Char) : Bool :=
  match l with
  | [] => startsWithL pat []
  | c :: cs => startsWithL pat (c :: cs) || containsL pat cs

/-- Python `pat in s` on strings: substring test. -/
def strContains (s pat : String) : Bool := containsL pat.data s.data

/-- Some occurrence of `x` is followed, after its end, by an occurrence of
`y` (used to state that one fragment appears before another in a trace). -/
def beforeL (x y l : List Char) : Bool :=
  match l with
  | [] => false
  | c :: cs =>
      (startsWithL x (c :: cs) && containsL y (List.drop x.length (c :: cs)))
        || beforeL x y cs

/-- The string contains `x` and, further right, `y`. -/
def strBefore (s x y : String) : Bool := beforeL x.data y.data s.data

/-- Python subscript `v[k]`: dict lookup; a missing key raises `KeyError`
whose `str` is the quoted key; a non-dict receiver raises `TypeError`. -/
def getItem (v : Val) (k : String) : Except String Val :=
  match v with
  | .vDict fs =>
      match fs.find k with
      | some x => .ok x
      | none => .error ("\x27" ++ k ++ "\x27")
  | _ => .error "TypeError: value is not subscriptable"

/-- Python `k in v` for the receivers the adapter can meet: key membership
on dicts, substring on strings, element equality on lists (a string key
only ever equals a string element); other receivers raise `TypeError`. -/
def pyIn (k : String) (v : Val) : Except String Bool :=
  match v with
  | .vDict fs => .ok (fs.hasKey k)
  | .vStr s => .ok (strContains s k)
  | .vList xs => .ok (Items.hasStr xs k)
  | _ => .error "TypeError: argument is not iterable"
where
  /-- Membership of a string among list elements under Python `==`. -/
  Items.hasStr : Items → String → Bool
    | .nil, _ => false
    | .cons (.vStr s) rest, key => s == key || Items.hasStr rest key
    | .cons _ rest, key => Items.hasStr rest key

/-- Python `data.decode("utf8")`: only `bytes` has `decode`; we carry bytes
by their decoded text, so decoding returns it. -/
def decodeUtf8 : Val → Except String String
  | .vBytes s => .ok s
  | _ => .error "AttributeError: decode"

mutual

/-- Model of `BedrockAgent._serialize_trace_data`: recursively turn every
`datetime` into its `isoformat()` string, recurse through dicts and lists,
and return every other value unchanged. -/
def serialize_trace_data : Val → Val
  | .vDatetime d => .vStr d.isoformat
  | .vDict fs => .vDict (serializeFields fs)
  | .vList xs => .vList (serializeItems xs)
  | .vStr s => .vStr s
  | .vInt n => .vInt n
  | .vBool b => .vBool b
  | .vNull => .vNull
  | .vBytes s => .vBytes s

/-- Dict branch of `_serialize_trace_data` (the comprehension over items). -/
def serializeFields : Fields → Fields
  | .nil => .nil
  | .cons k v rest => .cons k (serialize_trace_data v) (serializeFields rest)

/-- List branch of `_serialize_trace_data`. -/
def serializeItems : Items → Items
  | .nil => .nil
  | .cons v rest => .cons (serialize_trace_data v) (serializeItems rest)

end

/-- Does a value contain a raw `datetime` node anywhere? -/
def hasDatetime : Val → Bool
  | .vDatetime _ => true
  | .vDict fs => hasDatetimeF fs
  | .vList xs => hasDatetimeI xs
  | _ => false
where
  /-- Raw `datetime` somewhere in a dict spine. -/
  hasDatetimeF : Fields → Bool
    | .nil => false
    | .cons _ v rest => hasDatetime v || hasDatetimeF rest
  /-- Raw `datetime` somewhere in a list spine. -/
  hasDatetimeI : Items → Bool
    | .nil => false
    | .cons v rest => hasDatetime v || hasDatetimeI rest

/-- JSON string quoting (escaping of special characters elided: the
adapter never inspects the quoted content). -/
def jsonQuote (s : String) : String := "\"" ++ s ++ "\""

mutual

/-- Model of `json.dumps` as the adapter uses it: scalars and containers
render to JSON text; `datetime` and `bytes` are not JSON serializable and
raise `TypeError` (the `indent=2` layout is abstracted to one line). -/
def json_dumps : Val → Except String String
  | .vStr s => .ok (jsonQuote s)
  | .vInt n => .ok (toString n)
  | .vBool b => .ok (if b then "true" else "false")
  | .vNull => .ok "null"
  | .vDatetime _ => .error "TypeError: Object of type datetime is not JSON serializable"
  | .vBytes _ => .error "TypeError: Object of type bytes is not JSON serializable"
  | .vDict fs =>
      match dumpsFields fs with
      | .ok body => .ok ("\x7b" ++ body ++ "\x7d")
      | .error e => .error e
  | .vList xs =>
      match dumpsItems xs with
      | .ok body => .ok ("[" ++ body ++ "]")
      | .error e => .error e

/-- Comma-joined `"key": value` renderings of a dict spine. -/
def dumpsFields : Fields → Except String String
  | .nil => .ok ""
  | .cons k v .nil =>
      match json_dumps v with
      | .ok s => .ok (jsonQuote k ++ ": " ++ s)
      | .error e => .error e
  | .cons k v rest =>
      match json_dumps v, dumpsFields rest with
      | .ok s, .ok r => .ok (jsonQuote k ++ ": " ++ s ++ ", " ++ r)
      | .error e, _ => .error e
      | _, .error e => .error e

/-- Comma-joined renderings of a list spine. -/
def dumpsItems : Items → Except String String
  | .nil => .ok ""
  | .cons v .nil =>
      match json_dumps v with
      | .ok s => .ok s
      | .error e => .error e
  | .cons v rest =>
      match json_dumps v, dumpsItems rest with
      | .ok s, .ok r => .ok (s ++ ", " ++ r)
      | .error e, _ => .error e
      | _, .error e => .error e

end

mutual

/-- Python `str(v)` as an f-string renders it: strings verbatim, `True`,
`None`, `datetime` in space-separated form, containers in `repr` shape. -/
def pyStr : Val → String
  | .vStr s => s
  | .vInt n => toString n
  | .vBool b => if b then "True" else "False"
  | .vNull => "None"
  | .vDatetime d => d.pyText
  | .vBytes s => "b\x27" ++ s ++ "\x27"
  | .vDict fs => "\x7b" ++ pyReprFields fs ++ "\x7d"
  | .vList xs => "[" ++ pyReprItems xs ++ "]"

/-- Python `repr(v)`, used for elements inside container renderings. -/
def pyRepr : Val → String
  | .vStr s => "\x27" ++ s ++ "\x27"
  | .vInt n => toString n
  | .vBool b => if b then "True" else "False"
  | .vNull => "None"
  | .vDatetime d => "datetime.datetime(" ++ toString d.year ++ ", " ++
      toString d.month ++ ", " ++ toString d.day ++ ", " ++ toString d.hour ++
      ", " ++ toString d.minute ++ ", " ++ toString d.second ++ ")"
  | .vBytes s => "b\x27" ++ s ++ "\x27"
  | .vDict fs => "\x7b" ++ pyReprFields fs ++ "\x7d"
  | .vList xs => "[" ++ pyReprItems xs ++ "]"

/-- Comma-joined `repr` pairs of a dict. -/
def pyReprFields : Fields → String
  | .nil => ""
  | .cons k v .nil => "\x27" ++ k ++ "\x27: " ++ pyRepr v
  | .cons k v rest => "\x27" ++ k ++ "\x27: " ++ pyRepr v ++ ", " ++ pyReprFields rest

/-- Comma-joined `repr`s of list elements. -/
def pyReprItems : Items → String
  | .nil => ""
  | .cons v .nil => pyRepr v
  | .cons v rest => pyRepr v ++ ", " ++ pyReprItems rest

end

/-!
The invocation loop of `BedrockAgent.invoke_agent`.

The streamlit `trace` widget passed to `invoke_agent` is the incremental
trace sink: `trace.markdown(...)` and `trace.error(...)` are its push
operations.  We model the sink by which pushes raise (and with what
message); the fragments handed to the sink are recorded in the loop state
so that theorems can talk about what the sink received.

A stream item is either an event dict or a transport/remote error raised
while obtaining it; an error raised by the `invoke_agent` API call itself
is a stream whose first item is an error.
-/

/-- Behaviour of the trace widget: for each fragment, `none` means the
call returns normally, `some m` means it raises an exception whose
`str` is `m`.  `markdownFail` governs `trace.markdown`, `errorFail`
governs `trace.error`. -/
structure Sink where
  markdownFail : String → Option String
  errorFail : String → Option String

/-- A sink whose pushes always succeed. -/
def pureSink : Sink := ⟨fun _ => none, fun _ => none⟩

/-- A sink whose `markdown` pushes always raise (its `error` pushes
succeed), modelling a broken display widget. -/
def badSink : Sink := ⟨fun _ => some "widget exploded", fun _ => none⟩

/-- Mutable locals of one `invoke_agent` call (`response_text`,
`trace_text`, `step`), plus the log of fragments handed to the sink. -/
structure LoopState where
  response_text : String
  trace_text : String
  step : Nat
  sinkLog : List String
deriving DecidableEq

/-- State at the top of `invoke_agent`: empty texts, step counter zero. -/
def initState : LoopState := ⟨"", "", 0, []⟩

/-- One `trace.markdown(frag)` call: the fragment reaches the sink, and
the call either returns or raises per the sink behaviour. -/
def pushMarkdown (sink : Sink) (st : LoopState) (frag : String) :
    Except (String × LoopState) LoopState :=
  let st' := { st with sinkLog := st.sinkLog ++ [frag] }
  match sink.markdownFail frag with
  | none => .ok st'
  | some m => .error (m, st')

/-- One `trace.error(frag)` call, analogous to `pushMarkdown`. -/
def pushError (sink : Sink) (st : LoopState) (frag : String) :
    Except (String × LoopState) LoopState :=
  let st' := { st with sinkLog := st.sinkLog ++ [frag] }
  match sink.errorFail frag with
  | none => .ok st'
  | some m => .error (m, st')

/-- Python header fragment `---------- Step n ----------` with the
surrounding newlines of the f-string. -/
def stepHeader (n : Nat) : String :=
  "\n\n\n---------- Step " ++ toString n ++ " ----------\n\n\n"

/-- Fragment built for a rationale step. -/
def ratFrag (n : Nat) (text : String) : String :=
  stepHeader n ++ text ++ "\n\n\n"

/-- Fragment built around a JSON dump (generic orchestration detail and
failure-trace events). -/
def dumpFrag (d : String) : String := "\n\n\n" ++ d ++ "\n\n\n"

/-- Fragment built for a post-processing step. -/
def ppFrag (n : Nat) (d : String) : String := stepHeader n ++ d ++ "\n\n\n"

/-- Body of `if "chunk" in event:` — decode `event["chunk"]["bytes"]` and
overwrite `response_text` with it. -/
def handleChunk (st : LoopState) (event : Val) :
    Except (String × LoopState) LoopState :=
  match getItem event "chunk" with
  | .error m => .error (m, st)
  | .ok c =>
      match getItem c "bytes" with
      | .error m => .error (m, st)
      | .ok b =>
          match decodeUtf8 b with
          | .error m => .error (m, st)
          | .ok s => .ok { st with response_text := s }

/-- Body of `if "orchestrationTrace" in trace_obj:` with `orch` the value
of `trace_obj["orchestrationTrace"]` (the source looks the key up again at
each use; the lookup is pure, so the value is the same).  The JSON dump of
the cleaned payload is computed before the rationale test, exactly as in
the source; in the rationale branch `step` is incremented before the text
lookups of the f-string run. -/
def handleOrchestration (sink : Sink) (st : LoopState) (orch : Val) :
    Except (String × LoopState) LoopState :=
  match json_dumps (serialize_trace_data orch) with
  | .error m => .error (m, st)
  | .ok trace_dump =>
      match pyIn "rationale" orch with
      | .error m => .error (m, st)
      | .ok true =>
          let stepVal := st.step + 1
          match getItem orch "rationale" with
          | .error m => .error (m, { st with step := stepVal })
          | .ok r =>
              match getItem r "text" with
              | .error m => .error (m, { st with step := stepVal })
              | .ok tv =>
                  let frag := ratFrag stepVal (pyStr tv)
                  pushMarkdown sink
                    { st with step := stepVal, trace_text := st.trace_text ++ frag }
                    frag
      | .ok false =>
          match pyIn "modelInvocationInput" orch with
          | .error m => .error (m, st)
          | .ok true => .ok st
          | .ok false =>
              let frag := dumpFrag trace_dump
              pushMarkdown sink { st with trace_text := st.trace_text ++ frag } frag

/-- Body of `elif "failureTrace" in trace_obj:` with `ft` the value of
`trace_obj["failureTrace"]`: serialize, dump, append and push; no raise. -/
def handleFailure (sink : Sink) (st : LoopState) (ft : Val) :
    Except (String × LoopState) LoopState :=
  match json_dumps (serialize_trace_data ft) with
  | .error m => .error (m, st)
  | .ok d =>
      let frag := dumpFrag d
      pushMarkdown sink { st with trace_text := st.trace_text ++ frag } frag

/-- Body of `elif "postProcessingTrace" in trace_obj:`: increment the step
counter, then look up
`trace_obj["postProcessingTrace"]["modelInvocationOutput"]["parsedResponse"]["text"]`,
serialize and dump it, append and push. -/
def handlePostProcessing (sink : Sink) (st : LoopState) (traceObj : Val) :
    Except (String × LoopState) LoopState :=
  let stepVal := st.step + 1
  match getItem traceObj "postProcessingTrace" with
  | .error m => .error (m, { st with step := stepVal })
  | .ok pp =>
      match getItem pp "modelInvocationOutput" with
      | .error m => .error (m, { st with step := stepVal })
      | .ok a =>
          match getItem a "parsedResponse" with
          | .error m => .error (m, { st with step := stepVal })
          | .ok b =>
              match getItem b "text" with
              | .error m => .error (m, { st with step := stepVal })
              | .ok tv =>
                  match json_dumps (serialize_trace_data tv) with
                  | .error m => .error (m, { st with step := stepVal })
                  | .ok d =>
                      let frag := ppFrag stepVal d
                      pushMarkdown sink
                        { st with step := stepVal,
                                  trace_text := st.trace_text ++ frag }
                        frag

/-- The lookup `event["trace"]["trace"]`. -/
def getTraceObj (event : Val) : Except String Val :=
  match getItem event "trace" with
  | .error m => .error m
  | .ok t => getItem t "trace"

/-- Body of `elif "trace" in event:` — fetch `event["trace"]["trace"]` and
dispatch on the orchestration / failure / post-processing tags. -/
def handleTrace (sink : Sink) (st : LoopState) (event : Val) :
    Except (String × LoopState) LoopState :=
  match getTraceObj event with
  | .error m => .error (m, st)
  | .ok traceObj =>
      match pyIn "orchestrationTrace" traceObj with
      | .error m => .error (m, st)
      | .ok true =>
          match getItem traceObj "orchestrationTrace" with
          | .error m => .error (m, st)
          | .ok orch => handleOrchestration sink st orch
      | .ok false =>
          match pyIn "failureTrace" traceObj with
          | .error m => .error (m, st)
          | .ok true =>
              match getItem traceObj "failureTrace" with
              | .error m => .error (m, st)
              | .ok ft => handleFailure sink st ft
          | .ok false =>
              match pyIn "postProcessingTrace" traceObj with
              | .error m => .error (m, st)
              | .ok true => handlePostProcessing sink st traceObj
              | .ok false => .ok st

/-- The loop body `for event in response["completion"]:` applied to one
event.  Events carrying neither tag fall through with no effect. -/
def processEvent (sink : Sink) (st : LoopState) (event : Val) :
    Except (String × LoopState) LoopState :=
  match pyIn "chunk" event with
  | .error m => .error (m, st)
  | .ok true => handleChunk st event
  | .ok false =>
      match pyIn "trace" event with
      | .error m => .error (m, st)
      | .ok true => handleTrace sink st event
      | .ok false => .ok st

/-- The event loop: consume stream items in order; an error item models
an exception raised while producing the next event (or by the API call
itself when it is the first item). -/
def invokeLoop (sink : Sink) (st : LoopState) :
    List (Except String Val) → Except (String × LoopState) LoopState
  | [] => .ok st
  | .error m :: _ => .error (m, st)
  | .ok ev :: rest =>
      match processEvent sink st ev with
      | .error e => .error e
      | .ok st' => invokeLoop sink st' rest

/-- Result of one `invoke_agent` call: the returned pair, or the message
of the exception that propagated out. -/
inductive Outcome where
  | ok (finalText traceText : String)
  | err (msg : String)
deriving DecidableEq

/-- The `trace.error` fragments emitted by the except block, in order: the
leading error line, then the troubleshooting lines selected by substring
tests on the error message. -/
def errorFragments (m : String) : List String :=
  ("❌ Error invoking agent: " ++ m) ::
    (if strContains m "ResourceNotFoundException" then
      ["🔍 **Troubleshooting ResourceNotFoundException:**",
       "1. Verify Agent ID is correct",
       "2. Verify Agent Alias ID is correct",
       "3. Check if agent is in the correct AWS region",
       "4. Ensure agent status is PREPARED",
       "5. Check IAM permissions for bedrock:InvokeAgent"]
     else if strContains m "AccessDeniedException" then
      ["🔐 **Access Denied:** Check IAM permissions"]
     else [])

/-- Push a list of `trace.error` fragments in order, stopping at the
first one that raises. -/
def pushErrors (sink : Sink) (st : LoopState) :
    List String → Except (String × LoopState) LoopState
  | [] => .ok st
  | f :: rest =>
      match pushError sink st f with
      | .error e => .error e
      | .ok st' => pushErrors sink st' rest

/-- The `except Exception as e:` block: append `❌ Error: {msg}` to
`trace_text`, push the error fragments, and re-raise as
`Exception("Agent invocation failed: {msg}")`; if a `trace.error` call
itself raises, that exception propagates instead. -/
def errorHandler (sink : Sink) (m : String) (st : LoopState) :
    Outcome × LoopState :=
  let st1 := { st with trace_text := st.trace_text ++ "❌ Error: " ++ m }
  match pushErrors sink st1 (errorFragments m) with
  | .ok st2 => (.err ("Agent invocation failed: " ++ m), st2)
  | .error (m2, st2) => (.err m2, st2)

/-- Model of `BedrockAgent.invoke_agent`: run the event loop from the
initial state; on success return `(response_text, trace_text)`, on any
exception run the except block.  The final `LoopState` is returned
alongside so that theorems can inspect what the sink received. -/
def invoke_agent (sink : Sink) (stream : List (Except String Val)) :
    Outcome × LoopState :=
  match invokeLoop sink initState stream with
  | .ok st => (.ok st.response_text st.trace_text, st)
  | .error (m, st) => errorHandler sink m st

/-!
Construction (`BedrockAgent.__init__`) and `new_session`.

`st.session_state` is modelled by `SessionStore`; the boto client
creation is an external call whose result is a parameter, as is the
freshly generated `uuid1` string.  `_validate_agent` only emits an
advisory `st.info` inside a `try:`(its body cannot raise), so it is a
no-op in the model.
-/

/-- The process-wide streamlit store as the adapter uses it. -/
structure SessionStore where
  clientReady : Bool
  sessionId : Option String
deriving DecidableEq

/-- The constructed agent object (fields set by `__init__`). -/
structure BedrockAgent where
  region : String
  agent_id : String
  agent_alias_id : String
deriving DecidableEq

/-- Model of `BedrockAgent.__init__`: resolve the region (`region or
os.environ.get("AWS_REGION", "us-east-1")`), create the runtime client if
absent (re-raising its failure), create the session id if absent, store
the agent ids unchanged, then run the no-op `_validate_agent`.
`environmentName` is accepted and ignored, as in the source. -/
def BedrockAgent.construct (environmentName agent_id agent_alias_id : String)
    (region : String) (envRegion : Option String)
    (clientResult : Except String Unit) (freshSession : String)
    (store : SessionStore) : Except String (BedrockAgent × SessionStore) :=
  let regionVal := if region = "" then envRegion.getD "us-east-1" else region
  match (if store.clientReady then .ok () else clientResult : Except String Unit) with
  | .error e => .error e
  | .ok _ =>
      let sid := match store.sessionId with
        | some s => some s
        | none => some freshSession
      .ok ({ region := regionVal, agent_id := agent_id,
             agent_alias_id := agent_alias_id },
           { clientReady := true, sessionId := sid })

/-- Model of `BedrockAgent.new_session`: store a freshly generated id and
return `None` (the Python method has no return statement). -/
def new_session (fresh : String) (store : SessionStore) :
    Option String × SessionStore :=
  (none, { store with sessionId := some fresh })

/-!
Observers used in theorem statements: the tag-based classification an
event receives, defined over the embedded event type.
-/

/-- The event enters the `if "chunk" in event:` branch. -/
def isChunkTag (ev : Val) : Bool :=
  match pyIn "chunk" ev with
  | .ok true => true
  | _ => false

/-- The decoded chunk text an event contributes, when its chunk branch
succeeds. -/
def chunkText (ev : Val) : Option String :=
  match pyIn "chunk" ev with
  | .ok true =>
      match getItem ev "chunk" with
      | .ok c =>
          match getItem c "bytes" with
          | .ok b =>
              match decodeUtf8 b with
              | .ok s => some s
              | .error _ => none
          | .error _ => none
      | .error _ => none
  | _ => none

/-- The final text a successfully consumed event sequence yields:
last-write-wins over the chunk events, empty when there are none. -/
def finalTextSpec (evs : List Val) : String :=
  evs.foldl (fun acc ev =>
    match chunkText ev with
    | some s => s
    | none => acc) ""

/-- The orchestration payload enters the rationale branch. -/
def ratTag (orch : Val) : Bool :=
  match pyIn "rationale" orch with
  | .ok true => true
  | _ => false

/-- Among the trace-tagged branches, the event reaches one of the two
step-counting ones (rationale or post-processing). -/
def traceStepTag (ev : Val) : Bool :=
  match getTraceObj ev with
  | .error _ => false
  | .ok traceObj =>
      match pyIn "orchestrationTrace" traceObj with
      | .ok true =>
          match getItem traceObj "orchestrationTrace" with
          | .ok orch => ratTag orch
          | .error _ => false
      | .ok false =>
          match pyIn "failureTrace" traceObj with
          | .ok false =>
              match pyIn "postProcessingTrace" traceObj with
              | .ok true => true
              | _ => false
          | _ => false
      | .error _ => false

/-- The event is classified as a rationale step or a post-processing
step, the two branches that increment the step counter. -/
def stepEvent (ev : Val) : Bool :=
  match pyIn "chunk" ev with
  | .ok false =>
      match pyIn "trace" ev with
      | .ok true => traceStepTag ev
      | _ => false
  | _ => false

/-- Number of step-counting events in a sequence. -/
def countSteps (evs : List Val) : Nat := (evs.filter stepEvent).length

/-!
Concrete event shapes used in witnesses and counterexamples.
-/

/-- A content-chunk event whose bytes decode to `s`. -/
def chunkEvent (s : String) : Val :=
  dictOf [("chunk", dictOf [("bytes", .vBytes s)])]

/-- An orchestration-trace event with the given orchestration payload. -/
def orchEvent (orch : Val) : Val :=
  dictOf [("trace", dictOf [("trace", dictOf [("orchestrationTrace", orch)])])]

/-- A rationale event with the given rationale text. -/
def ratEvent (t : String) : Val :=
  orchEvent (dictOf [("rationale", dictOf [("text", .vStr t)])])

/-- A failure-trace event with the given failure payload. -/
def failEvent (p : Val) : Val :=
  dictOf [("trace", dictOf [("trace", dictOf [("failureTrace", p)])])]

/-- A post-processing event with the given parsed-response text. -/
def ppEvent (t : String) : Val :=
  dictOf [("trace", dictOf [("trace", dictOf [("postProcessingTrace",
    dictOf [("modelInvocationOutput", dictOf [("parsedResponse",
      dictOf [("text", .vStr t)])])])])])]

/-!
Supporting lemmas.
-/

theorem strAppend_empty (a : String) : a ++ "" = a := by
  apply String.ext
  simp [String.data_append]

theorem pushMarkdown_ok {sink : Sink} {st : LoopState} {f : String}
    {st' : LoopState} (h : pushMarkdown sink st f = .ok st') :
    st' = { st with sinkLog := st.sinkLog ++ [f] } := by
  unfold pushMarkdown at h
  cases hf : sink.markdownFail f with
  | none => simp [hf] at h; exact h.symm
  | some m => simp [hf] at h

theorem pushError_ok {sink : Sink} {st : LoopState} {f : String}
    {st' : LoopState} (h : pushError sink st f = .ok st') :
    st' = { st with sinkLog := st.sinkLog ++ [f] } := by
  unfold pushError at h
  cases hf : sink.errorFail f with
  | none => simp [hf] at h; exact h.symm
  | some m => simp [hf] at h

theorem pushErrors_ok {sink : Sink} (hok : ∀ f, sink.errorFail f = none) :
    ∀ (msgs : List String) (st : LoopState),
      pushErrors sink st msgs = .ok { st with sinkLog := st.sinkLog ++ msgs }
  | [], st => by
      cases st
      simp [pushErrors]
  | f :: rest, st => by
      simp [pushErrors, pushError, hok f, pushErrors_ok hok rest]

theorem handleOrchestration_ok {sink : Sink} {st : LoopState} {orch : Val}
    {st' : LoopState} (h : handleOrchestration sink st orch = .ok st') :
    st'.response_text = st.response_text ∧
      st'.step = st.step + (if ratTag orch then 1 else 0) ∧
      ∃ fr, st'.sinkLog = st.sinkLog ++ fr := by
  unfold handleOrchestration at h
  cases hd : json_dumps (serialize_trace_data orch) with
  | error m => simp [hd] at h
  | ok d =>
    simp only [hd] at h
    cases hr : pyIn "rationale" orch with
    | error m => simp [hr] at h
    | ok b =>
      cases b with
      | true =>
        simp only [hr] at h
        cases hra : getItem orch "rationale" with
        | error m => simp [hra] at h
        | ok r =>
          simp only [hra] at h
          cases ht : getItem r "text" with
          | error m => simp [ht] at h
          | ok tv =>
            simp only [ht] at h
            have he := pushMarkdown_ok h
            subst he
            exact ⟨rfl, by simp [ratTag, hr], ⟨_, rfl⟩⟩
      | false =>
        simp only [hr] at h
        cases hmi : pyIn "modelInvocationInput" orch with
        | error m => simp [hmi] at h
        | ok b2 =>
          cases b2 with
          | true =>
            simp only [hmi] at h
            cases h
            exact ⟨rfl, by simp [ratTag, hr], ⟨[], by simp⟩⟩
          | false =>
            simp only [hmi] at h
            have he := pushMarkdown_ok h
            subst he
            exact ⟨rfl, by simp [ratTag, hr], ⟨_, rfl⟩⟩

theorem handleFailure_ok {sink : Sink} {st : LoopState} {ft : Val}
    {st' : LoopState} (h : handleFailure sink st ft = .ok st') :
    st'.response_text = st.response_text ∧ st'.step = st.step ∧
      ∃ fr, st'.sinkLog = st.sinkLog ++ fr := by
  unfold handleFailure at h
  cases hd : json_dumps (serialize_trace_data ft) with
  | error m => simp [hd] at h
  | ok d =>
    simp only [hd] at h
    have he := pushMarkdown_ok h
    subst he
    exact ⟨rfl, rfl, ⟨_, rfl⟩⟩

theorem handlePostProcessing_ok {sink : Sink} {st : LoopState}
    {traceObj : Val} {st' : LoopState}
    (h : handlePostProcessing sink st traceObj = .ok st') :
    st'.response_text = st.response_text ∧ st'.step = st.step + 1 ∧
      ∃ fr, st'.sinkLog = st.sinkLog ++ fr := by
  unfold handlePostProcessing at h
  cases h1 : getItem traceObj "postProcessingTrace" with
  | error m => simp [h1] at h
  | ok pp =>
    simp only [h1] at h
    cases h2 : getItem pp "modelInvocationOutput" with
    | error m => simp [h2] at h
    | ok a =>
      simp only [h2] at h
      cases h3 : getItem a "parsedResponse" with
      | error m => simp [h3] at h
      | ok b =>
        simp only [h3] at h
        cases h4 : getItem b "text" with
        | error m => simp [h4] at h
        | ok tv =>
          simp only [h4] at h
          cases h5 : json_dumps (serialize_trace_data tv) with
          | error m => simp [h5] at h
          | ok d =>
            simp only [h5] at h
            have he := pushMarkdown_ok h
            subst he
            exact ⟨rfl, rfl, ⟨_, rfl⟩⟩

theorem handleTrace_ok {sink : Sink} {st : LoopState} {ev : Val}
    {st' : LoopState} (h : handleTrace sink st ev = .ok st') :
    st'.response_text = st.response_text ∧
      st'.step = st.step + (if traceStepTag ev then 1 else 0) ∧
      ∃ fr, st'.sinkLog = st.sinkLog ++ fr := by
  unfold handleTrace at h
  cases hto : getTraceObj ev with
  | error m => simp [hto] at h
  | ok traceObj =>
    simp only [hto] at h
    cases ho : pyIn "orchestrationTrace" traceObj with
    | error m => simp [ho] at h
    | ok b =>
      cases b with
      | true =>
        simp only [ho] at h
        cases hgo : getItem traceObj "orchestrationTrace" with
        | error m => simp [hgo] at h
        | ok orch =>
          simp only [hgo] at h
          obtain ⟨p1, p2, p3⟩ := handleOrchestration_ok h
          refine ⟨p1, ?_, p3⟩
          rw [p2]
          simp [traceStepTag, hto, ho, hgo]
      | false =>
        simp only [ho] at h
        cases hf : pyIn "failureTrace" traceObj with
        | error m => simp [hf] at h
        | ok b2 =>
          cases b2 with
          | true =>
            simp only [hf] at h
            cases hgf : getItem traceObj "failureTrace" with
            | error m => simp [hgf] at h
            | ok ft =>
              simp only [hgf] at h
              obtain ⟨p1, p2, p3⟩ := handleFailure_ok h
              refine ⟨p1, ?_, p3⟩
              rw [p2]
              simp [traceStepTag, hto, ho, hf]
          | false =>
            simp only [hf] at h
            cases hp : pyIn "postProcessingTrace" traceObj with
            | error m => simp [hp] at h
            | ok b3 =>
              cases b3 with
              | true =>
                simp only [hp] at h
                obtain ⟨p1, p2, p3⟩ := handlePostProcessing_ok h
                refine ⟨p1, ?_, p3⟩
                rw [p2]
                simp [traceStepTag, hto, ho, hf, hp]
              | false =>
                simp only [hp] at h
                cases h
                refine ⟨rfl, ?_, ⟨[], by simp⟩⟩
                simp [traceStepTag, hto, ho, hf, hp]

theorem processEvent_ok {sink : Sink} {st : LoopState} {ev : Val}
    {st' : LoopState} (h : processEvent sink st ev = .ok st') :
    st'.response_text =
        (match chunkText ev with
          | some s => s
          | none => st.response_text) ∧
      st'.step = st.step + (if stepEvent ev then 1 else 0) ∧
      ∃ fr, st'.sinkLog = st.sinkLog ++ fr := by
  unfold processEvent at h
  unfold chunkText stepEvent
  cases hc : pyIn "chunk" ev with
  | error m => simp [hc] at h
  | ok b =>
    cases b with
    | true =>
      simp only [hc] at h ⊢
      unfold handleChunk at h
      cases h1 : getItem ev "chunk" with
      | error m => simp [h1] at h
      | ok c =>
        simp only [h1] at h ⊢
        cases h2 : getItem c "bytes" with
        | error m => simp [h2] at h
        | ok bb =>
          simp only [h2] at h ⊢
          cases h3 : decodeUtf8 bb with
          | error m => simp [h3] at h
          | ok s =>
            simp only [h3] at h ⊢
            cases h
            exact ⟨rfl, by simp, ⟨[], by simp⟩⟩
    | false =>
      simp only [hc] at h ⊢
      cases ht : pyIn "trace" ev with
      | error m => simp [ht] at h
      | ok b2 =>
        cases b2 with
        | true =>
          simp only [ht] at h ⊢
          exact handleTrace_ok h
        | false =>
          simp only [ht] at h ⊢
          cases h
          exact ⟨rfl, by simp, ⟨[], by simp⟩⟩

theorem invokeLoop_ok_spec {sink : Sink} :
    ∀ (evs : List Val) (st stF : LoopState),
      invokeLoop sink st (evs.map .ok) = .ok stF →
        stF.response_text =
            evs.foldl (fun acc ev =>
              match chunkText ev with
              | some s => s
              | none => acc) st.response_text ∧
          stF.step = st.step + countSteps evs ∧
          ∃ fr, stF.sinkLog = st.sinkLog ++ fr
  | [], st, stF, h => by
      simp only [List.map, invokeLoop] at h
      cases h
      exact ⟨rfl, by simp [countSteps], ⟨[], by simp⟩⟩
  | ev :: rest, st, stF, h => by
      simp only [List.map, invokeLoop] at h
      cases hpe : processEvent sink st ev with
      | error e => simp [hpe] at h
      | ok st1 =>
        simp only [hpe] at h
        obtain ⟨r1, s1, fr1, l1⟩ := processEvent_ok hpe
        obtain ⟨r2, s2, fr2, l2⟩ := invokeLoop_ok_spec rest st1 stF h
        refine ⟨?_, ?_, ?_⟩
        · rw [List.foldl_cons, r2, r1]
        · rw [s2, s1]
          have : countSteps (ev :: rest) =
              (if stepEvent ev then 1 else 0) + countSteps rest := by
            simp only [countSteps, List.filter]
            cases hse : stepEvent ev <;> simp <;> omega
          rw [this]
          omega
        · exact ⟨fr1 ++ fr2, by rw [l2, l1, List.append_assoc]⟩

/-- The except block always re-raises: its outcome is an error. -/
theorem errorHandler_err (sink : Sink) (m : String) (st : LoopState) :
    ∃ m2, (errorHandler sink m st).1 = .err m2 := by
  cases hp : pushErrors sink
      { st with trace_text := st.trace_text ++ "❌ Error: " ++ m }
      (errorFragments m) with
  | ok st2 => exact ⟨"Agent invocation failed: " ++ m, by simp [errorHandler, hp]⟩
  | error e =>
      obtain ⟨m2, st2⟩ := e
      exact ⟨m2, by simp [errorHandler, hp]⟩

/-- With a sink whose error pushes succeed, the except block appends the
error line to the trace, hands every error fragment to the sink, and
re-raises the wrapped message. -/
theorem errorHandler_ok_sink {sink : Sink}
    (hsink : ∀ f, sink.errorFail f = none) (m : String) (st : LoopState) :
    errorHandler sink m st =
      (.err ("Agent invocation failed: " ++ m),
       { st with trace_text := st.trace_text ++ "❌ Error: " ++ m,
                 sinkLog := st.sinkLog ++ errorFragments m }) := by
  unfold errorHandler
  simp [pushErrors_ok hsink]

/-- An event with no chunk tag contributes no chunk text. -/
theorem chunkText_none_of_not_tag {ev : Val} (h : isChunkTag ev = false) :
    chunkText ev = none := by
  unfold isChunkTag at h
  unfold chunkText
  cases hc : pyIn "chunk" ev with
  | error m => rfl
  | ok b => cases b with
    | true => simp [hc] at h
    | false => rfl

/-- Folding the chunk update over a chunk-free sequence keeps the
accumulator. -/
theorem foldl_chunk_none : ∀ (evs : List Val) (acc : String),
    (∀ ev ∈ evs, isChunkTag ev = false) →
      evs.foldl (fun acc ev =>
        match chunkText ev with
        | some s => s
        | none => acc) acc = acc
  | [], _, _ => rfl
  | ev :: rest, acc, h => by
      rw [List.foldl_cons, chunkText_none_of_not_tag (h ev (by simp))]
      exact foldl_chunk_none rest acc (fun e he => h e (by simp [he]))

mutual

theorem serialize_noDatetime : ∀ v : Val,
    hasDatetime (serialize_trace_data v) = false
  | .vStr _ => rfl
  | .vInt _ => rfl
  | .vBool _ => rfl
  | .vNull => rfl
  | .vDatetime _ => rfl
  | .vBytes _ => rfl
  | .vDict fs => by
      simp [serialize_trace_data, hasDatetime, serializeFields_noDatetime fs]
  | .vList xs => by
      simp [serialize_trace_data, hasDatetime, serializeItems_noDatetime xs]

theorem serializeFields_noDatetime : ∀ fs : Fields,
    hasDatetime.hasDatetimeF (serializeFields fs) = false
  | .nil => rfl
  | .cons k v rest => by
      simp [serializeFields, hasDatetime.hasDatetimeF, serialize_noDatetime v,
        serializeFields_noDatetime rest]

theorem serializeItems_noDatetime : ∀ xs : Items,
    hasDatetime.hasDatetimeI (serializeItems xs) = false
  | .nil => rfl
  | .cons v rest => by
      simp [serializeItems, hasDatetime.hasDatetimeI, serialize_noDatetime v,
        serializeItems_noDatetime rest]

end

theorem serializeFields_keys : ∀ fs : Fields,
    (serializeFields fs).keys = fs.keys
  | .nil => rfl
  | .cons k v rest => by
      simp [serializeFields, Fields.keys, serializeFields_keys rest]

/-!
Claim theorems.
-/

/-- C1 counterexample: constructing the agent with an EMPTY agent id and
an EMPTY alias id succeeds (no `ConfigurationError` is raised — the
source contains no emptiness check at all), refuting the claim that such
a construction fails. -/
theorem c1_empty_id_construction_succeeds :
    BedrockAgent.construct "env" "" "" "us-east-1" none (.ok ()) "sid"
        ⟨false, none⟩ =
      .ok (⟨"us-east-1", "", ""⟩, ⟨true, some "sid"⟩) := rfl

/-- C1 (amended): construction never validates the agent id or alias id:
for EVERY pair — empty strings included — construction succeeds whenever
the runtime client is already cached or its creation succeeds, the ids
are stored unchanged, and no remote validation happens (construction has
no input from the agent service at all). -/
theorem c1_construction_no_id_validation
    (env agentId aliasId region fresh : String) (envRegion : Option String)
    (store : SessionStore) (clientResult : Except String Unit)
    (h : store.clientReady = true ∨ clientResult = .ok ()) :
    ∃ ag newStore,
      BedrockAgent.construct env agentId aliasId region envRegion
          clientResult fresh store = .ok (ag, newStore) ∧
        ag.agent_id = agentId ∧ ag.agent_alias_id = aliasId ∧
        newStore.sessionId ≠ none := by
  rcases store with ⟨ready, sid⟩
  cases ready with
  | true =>
      cases sid with
      | none => exact ⟨_, _, rfl, rfl, rfl, by simp⟩
      | some s => exact ⟨_, _, rfl, rfl, rfl, by simp⟩
  | false =>
      rcases h with h | h
      · simp at h
      · subst h
        cases sid with
        | none => exact ⟨_, _, rfl, rfl, rfl, by simp⟩
        | some s => exact ⟨_, _, rfl, rfl, rfl, by simp⟩

/-- C1 witness: a concrete non-empty pair on a fresh store. -/
theorem c1_construction_no_id_validation_witness :
    ∃ ag newStore,
      BedrockAgent.construct "e" "AGENT1" "ALIAS1" "" none (.ok ()) "s"
          ⟨false, none⟩ = .ok (ag, newStore) ∧
        ag.agent_id = "AGENT1" ∧ ag.agent_alias_id = "ALIAS1" ∧
        newStore.sessionId ≠ none :=
  c1_construction_no_id_validation "e" "AGENT1" "ALIAS1" "" "s" none
    ⟨false, none⟩ (.ok ()) (Or.inr rfl)

/-- C8 counterexample: `new_session` stores the freshly generated id but
returns `None` (the Python method has no return statement), refuting the
claim that the new identifier is returned to the caller. -/
theorem c8_new_session_returns_none_cex :
    (new_session "uuid-2" ⟨true, some "uuid-1"⟩).1 = none ∧
      (new_session "uuid-2" ⟨true, some "uuid-1"⟩).2.sessionId = some "uuid-2" ∧
      (none : Option String) ≠ some "uuid-2" :=
  ⟨rfl, rfl, by simp⟩

/-- C8 (amended): every call to `new_session` stores the freshly generated
identifier as the current session id but returns `None`; two consecutive
calls store distinct ids whenever the underlying uuid generator yields
distinct values. -/
theorem c8_new_session_stores_fresh_id (f1 f2 : String) (s : SessionStore)
    (h : f1 ≠ f2) :
    (new_session f1 s).1 = none ∧
      (new_session f1 s).2.sessionId = some f1 ∧
      (new_session f2 (new_session f1 s).2).2.sessionId = some f2 ∧
      (new_session f1 s).2.sessionId ≠
        (new_session f2 (new_session f1 s).2).2.sessionId := by
  refine ⟨rfl, rfl, rfl, ?_⟩
  simpa [new_session] using h

/-- C8 witness: two concrete distinct generator outputs. -/
theorem c8_new_session_stores_fresh_id_witness :
    (new_session "ua" ⟨false, none⟩).1 = none ∧
      (new_session "ua" ⟨false, none⟩).2.sessionId = some "ua" ∧
      (new_session "ub" (new_session "ua" ⟨false, none⟩).2).2.sessionId = some "ub" ∧
      (new_session "ua" ⟨false, none⟩).2.sessionId ≠
        (new_session "ub" (new_session "ua" ⟨false, none⟩).2).2.sessionId :=
  c8_new_session_stores_fresh_id "ua" "ub" ⟨false, none⟩ (by decide)

/-- C3: any event sequence consumed without error yields, as the final
text, the decoded text of the last content chunk (last-write-wins), and an
errorless sequence with no chunk event yields a successful result with an
empty final text. -/
theorem c3_final_text_last_chunk (sink : Sink) (evs : List Val)
    (ft tt : String) (stF : LoopState)
    (h : invoke_agent sink (evs.map .ok) = (.ok ft tt, stF)) :
    ft = finalTextSpec evs ∧
      ((∀ ev ∈ evs, isChunkTag ev = false) → ft = "") := by
  unfold invoke_agent at h
  cases hl : invokeLoop sink initState (evs.map .ok) with
  | error e =>
    obtain ⟨m, stE⟩ := e
    rw [hl] at h
    have h' : errorHandler sink m stE = (Outcome.ok ft tt, stF) := h
    obtain ⟨m2, hm2⟩ := errorHandler_err sink m stE
    rw [h'] at hm2
    simp at hm2
  | ok st1 =>
    rw [hl] at h
    have h' : (Outcome.ok st1.response_text st1.trace_text, st1) =
        (Outcome.ok ft tt, stF) := h
    have h1 := congrArg Prod.fst h'
    injection h1 with hft htt
    obtain ⟨hresp, _, _⟩ := invokeLoop_ok_spec evs initState st1 hl
    have hmain : ft = finalTextSpec evs := by
      rw [← hft, hresp]
      rfl
    refine ⟨hmain, fun hnone => ?_⟩
    rw [hmain]
    unfold finalTextSpec
    exact foldl_chunk_none evs "" hnone

/-- C3 witness: two chunks "A" then "B" with no failures give final text
"B". -/
theorem c3_final_text_last_chunk_witness :
    "B" = finalTextSpec [chunkEvent "A", chunkEvent "B"] ∧
      ((∀ ev ∈ [chunkEvent "A", chunkEvent "B"], isChunkTag ev = false) →
        "B" = "") :=
  c3_final_text_last_chunk pureSink [chunkEvent "A", chunkEvent "B"] "B" ""
    ⟨"B", "", 0, []⟩ rfl

/-- C4: the step counter starts at zero and, over any errorless run, ends
at exactly the number of rationale plus post-processing events (one shared
counter); and on the two-rationale stream "r1", "r2" the produced trace
text contains "Step 1" before "Step 2" and "r1" before "r2". -/
theorem c4_step_counter_and_order :
    (∀ (sink : Sink) (evs : List Val) (ft tt : String) (stF : LoopState),
        invoke_agent sink (evs.map .ok) = (.ok ft tt, stF) →
          stF.step = countSteps evs) ∧
      strBefore (invoke_agent pureSink
          [.ok (ratEvent "r1"), .ok (ratEvent "r2")]).2.trace_text
        "Step 1" "Step 2" = true ∧
      strBefore (invoke_agent pureSink
          [.ok (ratEvent "r1"), .ok (ratEvent "r2")]).2.trace_text
        "r1" "r2" = true := by
  refine ⟨?_, rfl, rfl⟩
  intro sink evs ft tt stF h
  unfold invoke_agent at h
  cases hl : invokeLoop sink initState (evs.map .ok) with
  | error e =>
    obtain ⟨m, stE⟩ := e
    rw [hl] at h
    have h' : errorHandler sink m stE = (Outcome.ok ft tt, stF) := h
    obtain ⟨m2, hm2⟩ := errorHandler_err sink m stE
    rw [h'] at hm2
    simp at hm2
  | ok st1 =>
    rw [hl] at h
    have h' : (Outcome.ok st1.response_text st1.trace_text, st1) =
        (Outcome.ok ft tt, stF) := h
    have hF : st1 = stF := congrArg Prod.snd h'
    obtain ⟨_, hstep, _⟩ := invokeLoop_ok_spec evs initState st1 hl
    rw [← hF, hstep]
    simp [initState]

/-- C4 witness: a rationale, a post-processing and a chunk event leave the
counter at two. -/
theorem c4_step_counter_and_order_witness :
    (invoke_agent pureSink
        ([ratEvent "x", ppEvent "y", chunkEvent "c"].map .ok)).2.step =
      countSteps [ratEvent "x", ppEvent "y", chunkEvent "c"] :=
  c4_step_counter_and_order.1 pureSink [ratEvent "x", ppEvent "y", chunkEvent "c"]
    _ _ _ rfl

/-- C5: an orchestration-trace event without a rationale field never
touches the step counter, and contributes exactly one serialized fragment
when it lacks `modelInvocationInput` and zero fragments when it carries it
(in particular a bare model-invocation-input event contributes nothing). -/
theorem c5_orchestration_without_rationale
    (sink : Sink) (st : LoopState) (fs : Fields) (d : String)
    (hnr : fs.hasKey "rationale" = false)
    (hd : json_dumps (serialize_trace_data (.vDict fs)) = .ok d)
    (hsink : sink.markdownFail (dumpFrag d) = none) :
    processEvent sink st (orchEvent (.vDict fs)) =
      (if fs.hasKey "modelInvocationInput" then .ok st
       else .ok { st with trace_text := st.trace_text ++ dumpFrag d,
                          sinkLog := st.sinkLog ++ [dumpFrag d] }) := by
  have hORCH : processEvent sink st (orchEvent (.vDict fs)) =
      handleOrchestration sink st (.vDict fs) := by
    simp [processEvent, orchEvent, dictOf, fieldsOf, pyIn, Fields.hasKey,
      handleTrace, getTraceObj, getItem, Fields.find]
  rw [hORCH]
  unfold handleOrchestration
  rw [hd]
  simp only [pyIn, hnr]
  cases hmi : fs.hasKey "modelInvocationInput" with
  | true => simp
  | false => simp [pushMarkdown, hsink]

/-- C5 witness: a bare model-invocation-input orchestration event leaves
the state untouched (zero fragments), evaluated at the initial state. -/
theorem c5_orchestration_without_rationale_witness :
    processEvent pureSink initState
        (orchEvent (.vDict (fieldsOf [("modelInvocationInput", .vStr "raw")]))) =
      (if (fieldsOf [("modelInvocationInput", .vStr "raw")]).hasKey
            "modelInvocationInput" then .ok initState
       else .ok { initState with
                    trace_text := initState.trace_text ++
                      dumpFrag "\x7b\"modelInvocationInput\": \"raw\"\x7d",
                    sinkLog := initState.sinkLog ++
                      [dumpFrag "\x7b\"modelInvocationInput\": \"raw\"\x7d"] }) :=
  c5_orchestration_without_rationale pureSink initState
    (fieldsOf [("modelInvocationInput", .vStr "raw")])
    "\x7b\"modelInvocationInput\": \"raw\"\x7d" rfl rfl rfl

/-- C6: a failure-trace event is serialized, appended and pushed but never
raised: the loop on a stream starting with a failure event equals the loop
on the remaining stream from the enriched state, so every subsequent event
is still consumed. -/
theorem c6_failure_trace_nonfatal
    (sink : Sink) (st : LoopState) (p : Val) (d : String)
    (rest : List (Except String Val))
    (hd : json_dumps (serialize_trace_data p) = .ok d)
    (hsink : sink.markdownFail (dumpFrag d) = none) :
    invokeLoop sink st (.ok (failEvent p) :: rest) =
      invokeLoop sink
        { st with trace_text := st.trace_text ++ dumpFrag d,
                  sinkLog := st.sinkLog ++ [dumpFrag d] } rest := by
  have hstep : processEvent sink st (failEvent p) =
      .ok { st with trace_text := st.trace_text ++ dumpFrag d,
                    sinkLog := st.sinkLog ++ [dumpFrag d] } := by
    simp [processEvent, failEvent, dictOf, fieldsOf, pyIn, Fields.hasKey,
      handleTrace, getTraceObj, getItem, Fields.find, handleFailure, hd,
      pushMarkdown, hsink]
  simp [invokeLoop, hstep]

/-- C6 witness: a concrete failure payload followed by a chunk event; the
chunk is consumed and the run succeeds with the failure rendered into the
trace. -/
theorem c6_failure_trace_nonfatal_witness :
    invokeLoop pureSink initState
        [.ok (failEvent (dictOf [("failureReason", .vStr "oops")])),
         .ok (chunkEvent "after")] =
      invokeLoop pureSink
        { initState with
            trace_text := initState.trace_text ++
              dumpFrag "\x7b\"failureReason\": \"oops\"\x7d",
            sinkLog := initState.sinkLog ++
              [dumpFrag "\x7b\"failureReason\": \"oops\"\x7d"] }
        [.ok (chunkEvent "after")] :=
  c6_failure_trace_nonfatal pureSink initState
    (dictOf [("failureReason", .vStr "oops")])
    "\x7b\"failureReason\": \"oops\"\x7d" [.ok (chunkEvent "after")] rfl rfl

/-- C2: when the loop raises with message `m` (a transport or remote-side
error item, or any exception while handling an event), and the sink's
error pushes succeed, `invoke_agent` fails with the wrapped message, the
formatted error fragment is appended to the trace text, the sink receives
the error-describing fragment, and every fragment pushed before the error
is still in the sink log ahead of the error fragments (the partial trace
reaches the caller through the sink it supplied). -/
theorem c2_invocation_error_wraps_and_reports
    (sink : Sink) (stream : List (Except String Val)) (m : String)
    (stE : LoopState)
    (hsink : ∀ f, sink.errorFail f = none)
    (hloop : invokeLoop sink initState stream = .error (m, stE)) :
    (invoke_agent sink stream).1 = .err ("Agent invocation failed: " ++ m) ∧
      (invoke_agent sink stream).2.trace_text =
        stE.trace_text ++ "❌ Error: " ++ m ∧
      (invoke_agent sink stream).2.sinkLog =
        stE.sinkLog ++ errorFragments m ∧
      ("❌ Error invoking agent: " ++ m) ∈ (invoke_agent sink stream).2.sinkLog := by
  unfold invoke_agent
  rw [hloop]
  show (errorHandler sink m stE).1 = _ ∧ (errorHandler sink m stE).2.trace_text = _ ∧
    (errorHandler sink m stE).2.sinkLog = _ ∧ _ ∈ (errorHandler sink m stE).2.sinkLog
  rw [errorHandler_ok_sink hsink]
  refine ⟨rfl, rfl, rfl, ?_⟩
  simp [errorFragments]

/-- C2 witness: the API call itself raises "boom" before any event: the
invocation fails wrapped, and the sink (previously empty) holds the
error-describing fragment. -/
theorem c2_invocation_error_wraps_and_reports_witness :
    (invoke_agent pureSink [.error "boom"]).1 =
        .err ("Agent invocation failed: " ++ "boom") ∧
      (invoke_agent pureSink [.error "boom"]).2.trace_text =
        initState.trace_text ++ "❌ Error: " ++ "boom" ∧
      (invoke_agent pureSink [.error "boom"]).2.sinkLog =
        initState.sinkLog ++ errorFragments "boom" ∧
      ("❌ Error invoking agent: " ++ "boom") ∈
        (invoke_agent pureSink [.error "boom"]).2.sinkLog :=
  c2_invocation_error_wraps_and_reports pureSink [.error "boom"] "boom"
    initState (fun _ => rfl) rfl

/-- C7 counterexample: the same one-rationale stream succeeds with a
well-behaved sink but makes `invoke_agent` fail when the sink's push
raises — the push failure is caught by the invocation-level handler, not
swallowed, so it does turn a successful invocation into a failure,
refuting the claim. -/
theorem c7_sink_failure_escalates_cex :
    (invoke_agent pureSink [.ok (ratEvent "r")]).1 =
        .ok "" "\n\n\n---------- Step 1 ----------\n\n\nr\n\n\n" ∧
      (invoke_agent badSink [.ok (ratEvent "r")]).1 =
        .err "Agent invocation failed: widget exploded" :=
  ⟨rfl, rfl⟩

/-- C7 (amended): a failure raised by the sink's markdown push aborts the
classifier loop and is handled exactly like a transport error: the
invocation fails with the wrapped sink-failure message (the error pushes
of the handler still run). -/
theorem c7_sink_failure_wrapped (sink : Sink) (t m : String)
    (hfail : sink.markdownFail (ratFrag 1 t) = some m)
    (hErrOk : ∀ f, sink.errorFail f = none) :
    (invoke_agent sink [.ok (ratEvent t)]).1 =
      .err ("Agent invocation failed: " ++ m) := by
  have hloop : invokeLoop sink initState [.ok (ratEvent t)] =
      .error (m, { initState with
                     step := 1,
                     trace_text := initState.trace_text ++ ratFrag 1 t,
                     sinkLog := initState.sinkLog ++ [ratFrag 1 t] }) := by
    simp [invokeLoop, processEvent, ratEvent, orchEvent, dictOf, fieldsOf,
      pyIn, Fields.hasKey, handleTrace, getTraceObj, getItem, Fields.find,
      handleOrchestration, json_dumps, dumpsFields, serialize_trace_data,
      serializeFields, jsonQuote, pyStr, pushMarkdown, hfail, initState]
  unfold invoke_agent
  rw [hloop]
  show (errorHandler sink m _).1 = _
  rw [errorHandler_ok_sink hErrOk]

/-- C7 amended-claim witness: the broken widget sink on a concrete
rationale event. -/
theorem c7_sink_failure_wrapped_witness :
    (invoke_agent badSink [.ok (ratEvent "r")]).1 =
      .err ("Agent invocation failed: " ++ "widget exploded") :=
  c7_sink_failure_wrapped badSink "r" "widget exploded" rfl (fun _ => rfl)

/-- C9: the trace serializer converts every `datetime` to its ISO-8601
string, leaves every other scalar unchanged, and recurses through dicts
(preserving the keys in order) and lists (element by element, in order);
consequently a serialized payload contains no raw `datetime` node, so the
rendered trace text never shows a raw timestamp representation. -/
theorem c9_serialize_timestamps :
    (∀ v, hasDatetime (serialize_trace_data v) = false) ∧
      (∀ d, serialize_trace_data (.vDatetime d) = .vStr d.isoformat) ∧
      (∀ s, serialize_trace_data (.vStr s) = .vStr s) ∧
      (∀ n, serialize_trace_data (.vInt n) = .vInt n) ∧
      (∀ b, serialize_trace_data (.vBool b) = .vBool b) ∧
      serialize_trace_data .vNull = .vNull ∧
      (∀ s, serialize_trace_data (.vBytes s) = .vBytes s) ∧
      (∀ fs, serialize_trace_data (.vDict fs) = .vDict (serializeFields fs)) ∧
      (∀ fs, (serializeFields fs).keys = fs.keys) ∧
      (∀ k v rest, serializeFields (.cons k v rest) =
        .cons k (serialize_trace_data v) (serializeFields rest)) ∧
      (∀ xs, serialize_trace_data (.vList xs) = .vList (serializeItems xs)) ∧
      (∀ v rest, serializeItems (.cons v rest) =
        .cons (serialize_trace_data v) (serializeItems rest)) :=
  ⟨serialize_noDatetime, fun _ => rfl, fun _ => rfl, fun _ => rfl,
   fun _ => rfl, rfl, fun _ => rfl, fun _ => rfl, serializeFields_keys,
   fun _ _ _ => rfl, fun _ => rfl, fun _ _ => rfl⟩

/-- C10: the no-crash rule covers only unrecognised tags.  An event with
an unknown tag is ignored and the invocation succeeds; but a
post-processing event lacking `modelInvocationOutput`, and a rationale
event lacking its `text` field, raise `KeyError`, which aborts the whole
invocation (a later chunk event is never consumed) and surfaces as the
wrapped invocation error. -/
theorem c10_malformed_known_event_aborts :
    (invoke_agent pureSink [.ok (dictOf [("unknownTag", .vNull)])]).1 =
        .ok "" "" ∧
      (invoke_agent pureSink
          [.ok (dictOf [("trace", dictOf [("trace",
              dictOf [("postProcessingTrace", dictOf [])])])]),
           .ok (chunkEvent "later")]).1 =
        .err "Agent invocation failed: \x27modelInvocationOutput\x27" ∧
      (invoke_agent pureSink
          [.ok (orchEvent (dictOf [("rationale", dictOf [])]))]).1 =
        .err "Agent invocation failed: \x27text\x27" :=
  ⟨rfl, rfl, rfl⟩

